import Mathlib

/-!
Verification of the core math of the ABI Break-Even Loadout Calculator
(`src/streamlit_app.py`).

The program has two pure core functions and one button handler:

* `break_even_loss(win_rate, avg_win) = -(win_rate * avg_win) / (1 - win_rate)`
* `monte_carlo_sim(win_rate, avg_win, avg_loss, num_raids=1000)`: starts an
  equity list at `[0]` and, for each of `num_raids` trials, appends
  `equity[-1] + avg_win` when a uniform draw in `[0,1)` is below `win_rate`,
  else `equity[-1] + avg_loss`.
* the `run_button` handler: derives `p = extraction_rate_percent / 100`,
  `total_earned = total_earned_millions * 1_000_000`, `wins = total_raids * p`,
  rejects the input when `wins <= 0`, and otherwise computes the derived
  metrics and runs three simulations.

All arithmetic is embedded over `ℚ` (exact arithmetic; the Python source uses
floats, and the spec allows floating-point tolerance).  The ambient random
generator `np.random.random()` is reified as an explicit stream of draws
`draws : ℕ → ℚ`; trial `i` consumes `draws i`.  Note that in Lean division by
zero is total and returns `0`, so the source's `ZeroDivisionError` hazard is
expressed as "the divisor is `0`" rather than as an exception.
-/

/-- Source `break_even_loss` (src/streamlit_app.py lines 9-11):
`return -(win_rate * avg_win) / (1 - win_rate)`. -/
def break_even_loss (win_rate avg_win : ℚ) : ℚ :=
  -(win_rate * avg_win) / (1 - win_rate)

/-- Source `monte_carlo_sim` (src/streamlit_app.py lines 14-22), with the
ambient random generator made explicit: `draws i` is the uniform draw consumed
by trial `i`.  `equity = [0]`, then each trial appends
`equity[-1] + avg_win` if the draw is below `win_rate`, else
`equity[-1] + avg_loss`. -/
def monte_carlo_sim (win_rate avg_win avg_loss : ℚ) (num_raids : ℕ)
    (draws : ℕ → ℚ) : List ℚ :=
  match num_raids with
  | 0 => [0]
  | n + 1 =>
    let equity := monte_carlo_sim win_rate avg_win avg_loss n draws
    if draws n < win_rate then
      equity ++ [equity.getLastD 0 + avg_win]
    else
      equity ++ [equity.getLastD 0 + avg_loss]

/-- Closed form of the equity value after `n` trials: `equity_val 0 = 0` and
trial `n` adds `avg_win` or `avg_loss` according to `draws n`. -/
def equity_val (win_rate avg_win avg_loss : ℚ) (draws : ℕ → ℚ) : ℕ → ℚ
  | 0 => 0
  | n + 1 =>
    if draws n < win_rate then
      equity_val win_rate avg_win avg_loss draws n + avg_win
    else
      equity_val win_rate avg_win avg_loss draws n + avg_loss

/-- Outputs computed by the `run_button` handler on the success branch
(src/streamlit_app.py lines 91-156). -/
structure CalcOutput where
  p : ℚ
  avg_win : ℚ
  L_BE : ℚ
  abs_L_BE : ℚ
  rr_be : ℚ
  eq_bad : List ℚ
  eq_break : List ℚ
  eq_good : List ℚ
deriving Repr, DecidableEq

/-- Source `run_button` handler (src/streamlit_app.py lines 83-156): derives
`p`, `total_earned` and `wins`, errors when `wins <= 0`, and otherwise
computes the derived metrics and the three example simulations (each
`monte_carlo_sim` call uses the default `num_raids = 1000`; `d1 d2 d3` are
the three independent draw streams). -/
def run_handler (total_raids extraction_rate_percent total_earned_millions : ℚ)
    (d1 d2 d3 : ℕ → ℚ) : Except String CalcOutput :=
  let p := extraction_rate_percent / 100
  let total_earned := total_earned_millions * 1000000
  let wins := total_raids * p
  if wins ≤ 0 then
    Except.error "Extraction rate / total raids combo is invalid."
  else
    let avg_win := total_earned / wins
    let L_BE := break_even_loss p avg_win
    let abs_L_BE := |L_BE|
    let rr_be := avg_win / abs_L_BE
    let loadout_expensive := abs_L_BE * 1.5
    let loadout_break_even := abs_L_BE
    let loadout_efficient := abs_L_BE * 0.5
    Except.ok ⟨p, avg_win, L_BE, abs_L_BE, rr_be,
      monte_carlo_sim p avg_win (-loadout_expensive) 1000 d1,
      monte_carlo_sim p avg_win (-loadout_break_even) 1000 d2,
      monte_carlo_sim p avg_win (-loadout_efficient) 1000 d3⟩

/-- The widget constraints of the input form (src/streamlit_app.py lines
54-60): `Total Raids` has `min_value=1.0`, `Extraction Rate %` has
`min_value=0.1, max_value=99.9`, `Total Earned (millions)` has
`min_value=0.01`. -/
def widget_ok (total_raids extraction_rate_percent total_earned_millions : ℚ) : Prop :=
  1 ≤ total_raids ∧ 1/10 ≤ extraction_rate_percent ∧
    extraction_rate_percent ≤ 999/10 ∧ 1/100 ≤ total_earned_millions

instance (a b c : ℚ) : Decidable (widget_ok a b c) := by
  unfold widget_ok; infer_instance

/-- C1: zero-expectancy identity of the break-even loss.  For `0 < winRate < 1`
and `avgWin > 0`, `winRate * avgWin + (1 - winRate) * break_even_loss = 0`
exactly over `ℚ`. -/
theorem break_even_zero_expectancy (win_rate avg_win : ℚ)
    (h0 : 0 < win_rate) (h1 : win_rate < 1) (hw : 0 < avg_win) :
    win_rate * avg_win + (1 - win_rate) * break_even_loss win_rate avg_win = 0 := by
  have hne : 1 - win_rate ≠ 0 := by linarith
  unfold break_even_loss
  field_simp
  ring

/-- Witness for C1 at `winRate = 1/2`, `avgWin = 100`. -/
theorem break_even_zero_expectancy_witness :
    (1/2 : ℚ) * 100 + (1 - 1/2) * break_even_loss (1/2) 100 = 0 :=
  break_even_zero_expectancy (1/2) 100 (by norm_num) (by norm_num) (by norm_num)

/-- C3: for `0 < winRate < 1` and `avgWin > 0`, `break_even_loss ≤ 0`. -/
theorem break_even_loss_nonpos (win_rate avg_win : ℚ)
    (h0 : 0 < win_rate) (h1 : win_rate < 1) (hw : 0 < avg_win) :
    break_even_loss win_rate avg_win ≤ 0 := by
  unfold break_even_loss
  have hnum : 0 < win_rate * avg_win := mul_pos h0 hw
  have hden : 0 < 1 - win_rate := by linarith
  have : 0 ≤ win_rate * avg_win / (1 - win_rate) := le_of_lt (div_pos hnum hden)
  rw [neg_div]
  linarith

/-- Witness for C3 at `winRate = 3/5`, `avgWin = 200000`. -/
theorem break_even_loss_nonpos_witness :
    break_even_loss (3/5) 200000 ≤ 0 :=
  break_even_loss_nonpos (3/5) 200000 (by norm_num) (by norm_num) (by norm_num)

/-- C5: the derived risk-to-reward ratio `avgWin / |break_even_loss|` equals
`(1 - winRate) / winRate` for `0 < winRate < 1` and `avgWin > 0`.  This is
the `rr_be = avg_win / abs_L_BE` computed by the handler. -/
theorem rr_be_identity (win_rate avg_win : ℚ)
    (h0 : 0 < win_rate) (h1 : win_rate < 1) (hw : 0 < avg_win) :
    avg_win / |break_even_loss win_rate avg_win| = (1 - win_rate) / win_rate := by
  have hden : 0 < 1 - win_rate := by linarith
  have hneg : break_even_loss win_rate avg_win < 0 := by
    unfold break_even_loss
    rw [neg_div]
    have : 0 < win_rate * avg_win / (1 - win_rate) := div_pos (mul_pos h0 hw) hden
    linarith
  rw [abs_of_neg hneg]
  unfold break_even_loss
  rw [neg_div, neg_neg]
  rw [div_div_eq_mul_div]
  rw [div_eq_div_iff (by positivity) h0.ne']
  ring

/-- Witness for C5 at `winRate = 1/2`, `avgWin = 100`. -/
theorem rr_be_identity_witness :
    (100 : ℚ) / |break_even_loss (1/2) 100| = (1 - 1/2) / (1/2) :=
  rr_be_identity (1/2) 100 (by norm_num) (by norm_num) (by norm_num)

/-- C9: concrete evaluations: `break_even_loss(0.5, 100) = -100` with
risk-to-reward `avg_win / |L_BE| = 1`, and
`break_even_loss(0.6, 200000) = -300000`. -/
theorem break_even_concrete :
    break_even_loss 0.5 100 = -100 ∧
      (100 : ℚ) / |break_even_loss 0.5 100| = 1 ∧
      break_even_loss 0.6 200000 = -300000 := by
  refine ⟨?_, ?_, ?_⟩ <;> norm_num [break_even_loss]

/-- C6: `break_even_loss` divides by `1 - winRate` with no guard.  Under the
precondition `0 < winRate < 1` the divisor is nonzero, but at `winRate = 1`
the divisor is exactly `0` (in Python, a `ZeroDivisionError`), and the only
upstream validation — the handler's `wins > 0` check — does not exclude
`winRate = 1`: with `total_raids = 5` and `extraction_rate_percent = 100`
(so `p = 1`) the guard passes and the handler reaches `break_even_loss`. -/
theorem break_even_division_unguarded (win_rate : ℚ)
    (h0 : 0 < win_rate) (h1 : win_rate < 1) :
    (1 - win_rate ≠ 0) ∧ ((1 : ℚ) - 1 = 0) ∧
      ¬ ((5 : ℚ) * (100 / 100) ≤ 0) ∧
      (∃ out, run_handler 5 100 1 (fun _ => 0) (fun _ => 0) (fun _ => 0) =
        Except.ok out ∧ out.p = 1) := by
  refine ⟨by linarith, by norm_num, by norm_num, ?_⟩
  unfold run_handler
  rw [if_neg (by norm_num)]
  exact ⟨_, rfl, by norm_num⟩

/-- Witness for C6 at `winRate = 1/2`. -/
theorem break_even_division_unguarded_witness :
    (1 - (1/2 : ℚ) ≠ 0) ∧ ((1 : ℚ) - 1 = 0) ∧
      ¬ ((5 : ℚ) * (100 / 100) ≤ 0) ∧
      (∃ out, run_handler 5 100 1 (fun _ => 0) (fun _ => 0) (fun _ => 0) =
        Except.ok out ∧ out.p = 1) :=
  break_even_division_unguarded (1/2) (by norm_num) (by norm_num)

/-- The map of a function over `List.range (n + 1)` splits off its last
element. -/
theorem map_range_succ (f : ℕ → ℚ) (n : ℕ) :
    (List.range (n + 1)).map f = (List.range n).map f ++ [f n] := by
  rw [List.range_succ, List.map_append]
  rfl

/-- The last element of a map over `List.range (n + 1)` is the value at `n`. -/
theorem getLastD_map_range (f : ℕ → ℚ) (n : ℕ) :
    ((List.range (n + 1)).map f).getLastD 0 = f n := by
  rw [map_range_succ]
  exact List.getLastD_concat _ _ _

/-- Indexing a map over `List.range m` with `getD` returns the value at the
index, for indices below `m`. -/
theorem getD_map_range (f : ℕ → ℚ) (m k : ℕ) (hk : k < m) :
    ((List.range m).map f).getD k 0 = f k := by
  rw [List.getD_eq_getElem?_getD, List.getElem?_map]
  rw [List.getElem?_eq_getElem (by simpa using hk)]
  simp [List.getElem_range]

/-- The simulation equals the closed-form equity values mapped over
`0, 1, ..., num_raids`. -/
theorem monte_carlo_sim_eq_map (win_rate avg_win avg_loss : ℚ) (draws : ℕ → ℚ) :
    ∀ num_raids : ℕ, monte_carlo_sim win_rate avg_win avg_loss num_raids draws =
      (List.range (num_raids + 1)).map (equity_val win_rate avg_win avg_loss draws) := by
  intro n
  induction n with
  | zero => simp [monte_carlo_sim, equity_val, List.range_succ]
  | succ n ih =>
    simp only [monte_carlo_sim]
    rw [ih, getLastD_map_range, map_range_succ _ (n + 1)]
    by_cases h : draws n < win_rate
    · rw [if_pos h]
      simp [equity_val, h]
    · rw [if_neg h]
      simp [equity_val, h]

/-- C2: for every `winRate` in `(0,1)` and every positive `numRaids`, the
simulated sequence has length exactly `numRaids + 1` and its first element is
exactly `0`, regardless of the random draws. -/
theorem monte_carlo_sim_length_head (win_rate avg_win avg_loss : ℚ)
    (num_raids : ℕ) (draws : ℕ → ℚ)
    (h0 : 0 < win_rate) (h1 : win_rate < 1) (hn : 0 < num_raids) :
    (monte_carlo_sim win_rate avg_win avg_loss num_raids draws).length = num_raids + 1 ∧
      (monte_carlo_sim win_rate avg_win avg_loss num_raids draws).head? = some 0 := by
  rw [monte_carlo_sim_eq_map]
  constructor
  · simp
  · rw [List.range_succ_eq_map]
    simp [equity_val]

/-- Witness for C2 at `winRate = 1/2`, `avgWin = 100`, `avgLoss = -100`,
`numRaids = 3`, constant draw stream. -/
theorem monte_carlo_sim_length_head_witness :
    (monte_carlo_sim (1/2) 100 (-100) 3 (fun _ => 0)).length = 3 + 1 ∧
      (monte_carlo_sim (1/2) 100 (-100) 3 (fun _ => 0)).head? = some 0 :=
  monte_carlo_sim_length_head (1/2) 100 (-100) 3 (fun _ => 0)
    (by norm_num) (by norm_num) (by norm_num)

/-- C4: every consecutive difference `equity[i+1] - equity[i]` in a simulated
sequence is exactly `avgWin` or exactly `avgLoss`, for any outcome of the
draws. -/
theorem monte_carlo_sim_step_diff (win_rate avg_win avg_loss : ℚ)
    (num_raids : ℕ) (draws : ℕ → ℚ) (i : ℕ) (hi : i < num_raids) :
    (monte_carlo_sim win_rate avg_win avg_loss num_raids draws).getD (i + 1) 0 -
        (monte_carlo_sim win_rate avg_win avg_loss num_raids draws).getD i 0 = avg_win ∨
      (monte_carlo_sim win_rate avg_win avg_loss num_raids draws).getD (i + 1) 0 -
        (monte_carlo_sim win_rate avg_win avg_loss num_raids draws).getD i 0 = avg_loss := by
  rw [monte_carlo_sim_eq_map]
  rw [getD_map_range _ _ _ (by omega), getD_map_range _ _ _ (by omega)]
  by_cases h : draws i < win_rate
  · left
    simp [equity_val, h]
  · right
    simp [equity_val, h]

/-- Witness for C4 at `winRate = 1/2`, `numRaids = 3`, `i = 1`. -/
theorem monte_carlo_sim_step_diff_witness :
    (monte_carlo_sim (1/2) 100 (-100) 3 (fun _ => 0)).getD (1 + 1) 0 -
        (monte_carlo_sim (1/2) 100 (-100) 3 (fun _ => 0)).getD 1 0 = 100 ∨
      (monte_carlo_sim (1/2) 100 (-100) 3 (fun _ => 0)).getD (1 + 1) 0 -
        (monte_carlo_sim (1/2) 100 (-100) 3 (fun _ => 0)).getD 1 0 = -100 :=
  monte_carlo_sim_step_diff (1/2) 100 (-100) 3 (fun _ => 0) 1 (by norm_num)

/-- The closed-form equity value only depends on the draws consumed so far. -/
theorem equity_val_congr (win_rate avg_win avg_loss : ℚ) (d1 d2 : ℕ → ℚ) :
    ∀ k : ℕ, (∀ i, i < k → d1 i = d2 i) →
      equity_val win_rate avg_win avg_loss d1 k =
        equity_val win_rate avg_win avg_loss d2 k := by
  intro k
  induction k with
  | zero => intro _; rfl
  | succ k ih =>
    intro h
    have hk : d1 k = d2 k := h k (Nat.lt_succ_self k)
    have ih2 := ih (fun i hi => h i (Nat.lt_succ_of_lt hi))
    simp [equity_val, hk, ih2]

/-- C8: the simulation is a deterministic function of its inputs plus the
random source: two runs whose draw streams agree on the `numRaids` consumed
draws produce identical sequences (in particular, the same injected seed, and
hence the same stream, reproduces the sequence). -/
theorem monte_carlo_sim_deterministic (win_rate avg_win avg_loss : ℚ)
    (num_raids : ℕ) (d1 d2 : ℕ → ℚ) (h : ∀ i, i < num_raids → d1 i = d2 i) :
    monte_carlo_sim win_rate avg_win avg_loss num_raids d1 =
      monte_carlo_sim win_rate avg_win avg_loss num_raids d2 := by
  rw [monte_carlo_sim_eq_map, monte_carlo_sim_eq_map]
  apply List.map_congr_left
  intro k hk
  have hk2 : k < num_raids + 1 := by simpa using hk
  exact equity_val_congr win_rate avg_win avg_loss d1 d2 k
    (fun i hi => h i (by omega))

/-- Witness for C8: two streams agreeing below `numRaids = 2`. -/
theorem monte_carlo_sim_deterministic_witness :
    monte_carlo_sim (1/2) 100 (-100) 2 (fun _ => 0) =
      monte_carlo_sim (1/2) 100 (-100) 2 (fun i => if i < 2 then 0 else 1) :=
  monte_carlo_sim_deterministic (1/2) 100 (-100) 2 _ _
    (fun i hi => by simp [hi])

/-- C7: when the derived win count `wins = totalRaids * p` is non-positive the
handler returns the invalid-input error and produces no output; when
`wins > 0` it proceeds with the full calculation, producing the derived
metrics and the three simulations. -/
theorem run_handler_guard (total_raids erp tem : ℚ) (d1 d2 d3 : ℕ → ℚ) :
    (total_raids * (erp / 100) ≤ 0 →
      run_handler total_raids erp tem d1 d2 d3 =
        Except.error "Extraction rate / total raids combo is invalid.") ∧
    (0 < total_raids * (erp / 100) →
      ∃ out, run_handler total_raids erp tem d1 d2 d3 = Except.ok out ∧
        out.p = erp / 100 ∧
        out.avg_win = tem * 1000000 / (total_raids * (erp / 100)) ∧
        out.L_BE = break_even_loss out.p out.avg_win ∧
        out.abs_L_BE = |out.L_BE| ∧
        out.rr_be = out.avg_win / out.abs_L_BE ∧
        out.eq_bad = monte_carlo_sim out.p out.avg_win (-(out.abs_L_BE * 1.5)) 1000 d1 ∧
        out.eq_break = monte_carlo_sim out.p out.avg_win (-out.abs_L_BE) 1000 d2 ∧
        out.eq_good = monte_carlo_sim out.p out.avg_win (-(out.abs_L_BE * 0.5)) 1000 d3) := by
  constructor
  · intro h
    unfold run_handler
    rw [if_pos h]
  · intro h
    unfold run_handler
    rw [if_neg (not_le.mpr h)]
    exact ⟨_, rfl, rfl, rfl, rfl, rfl, rfl, rfl, rfl, rfl⟩

/-- Witness for C7: the error branch at `totalRaids = -1` and the success
branch at `totalRaids = 10` (both with `erp = 50`, `tem = 1`). -/
theorem run_handler_guard_witness :
    run_handler (-1) 50 1 (fun _ => 0) (fun _ => 0) (fun _ => 0) =
        Except.error "Extraction rate / total raids combo is invalid." ∧
      ∃ out, run_handler 10 50 1 (fun _ => 0) (fun _ => 0) (fun _ => 0) =
        Except.ok out :=
  ⟨(run_handler_guard (-1) 50 1 _ _ _).1 (by norm_num),
    Exists.imp (fun _ h => h.1) ((run_handler_guard 10 50 1 _ _ _).2 (by norm_num))⟩

/-- C10: for every input accepted by the form widgets (`totalRaids ≥ 1`,
`extractionRatePercent ∈ [0.1, 99.9]`, `totalEarnedMillions ≥ 0.01`), the
derived win count is strictly positive, the win rate is at most `0.999 < 1`,
the divisor `1 - p` of `break_even_loss` is nonzero, and the handler takes
the success branch: the invalid-combo error and the `winRate = 1` division
by zero are unreachable through the interface. -/
theorem widget_inputs_safe (total_raids erp tem : ℚ) (d1 d2 d3 : ℕ → ℚ)
    (h : widget_ok total_raids erp tem) :
    0 < total_raids * (erp / 100) ∧ erp / 100 ≤ 999/1000 ∧ erp / 100 < 1 ∧
      1 - erp / 100 ≠ 0 ∧
      ∃ out, run_handler total_raids erp tem d1 d2 d3 = Except.ok out := by
  obtain ⟨h1, h2, h3, h4⟩ := h
  have hp : 0 < erp / 100 := by positivity
  have hwins : 0 < total_raids * (erp / 100) := mul_pos (by linarith) hp
  have hub : erp / 100 ≤ 999/1000 := by linarith
  refine ⟨hwins, hub, by linarith, by intro hc; nlinarith [hub], ?_⟩
  unfold run_handler
  rw [if_neg (not_le.mpr hwins)]
  exact ⟨_, rfl⟩

/-- Witness for C10 at `totalRaids = 1`, `erp = 50`, `tem = 1`. -/
theorem widget_inputs_safe_witness :
    0 < (1 : ℚ) * (50 / 100) ∧ (50 : ℚ) / 100 ≤ 999/1000 ∧ (50 : ℚ) / 100 < 1 ∧
      1 - (50 : ℚ) / 100 ≠ 0 ∧
      ∃ out, run_handler 1 50 1 (fun _ => 0) (fun _ => 0) (fun _ => 0) =
        Except.ok out :=
  widget_inputs_safe 1 50 1 (fun _ => 0) (fun _ => 0) (fun _ => 0)
    (by norm_num [widget_ok])
